import Mathlib

/-!
Formal model of qualipy's pattern-detection filter.

Source files modelled:
  * `imgfilter/filters/pattern_detection.py` (`distances_from_center`,
    `pattern_recognition`, `scaled_prediction`)
  * `imgfilter/utils/utils.py` (`normalize`)

Number model: Python/numpy floats are modelled as real numbers (`ℝ`).
A possibly-non-finite float (NaN produced by `numpy.mean` of an empty
array or by a zero-by-zero division) is modelled as `Option ℝ`, with
`none` standing for the non-finite value; every ordered comparison
against `none` is false, matching IEEE comparisons against NaN, and
arithmetic on `none` yields `none`.

The helpers `remove_anomalies`, `get_max_values` and `linear_normalize`
live in `imgfilter/analyzers/common/statistic_common.py`, which is not
part of the sources; they are modelled from the specification (see the
doc comments on the corresponding definitions).
-/

namespace Qualipy

noncomputable section

open Classical

/-- Model of `numpy.mean` on a 1-D array: the arithmetic mean for a
nonempty array, NaN (here `none`) for the empty array. -/
def npMean (xs : List ℝ) : Option ℝ :=
  if xs.isEmpty then none else some (xs.sum / xs.length)

/-- Model of `numpy.min` on a 1-D array.  `numpy.min` raises on an empty
array; the `0` default of the empty case is never relied upon (all
theorems about it assume a nonempty array). -/
def npMin : List ℝ → ℝ
  | [] => 0
  | x :: xs => xs.foldl min x

/-- Model of `numpy.max` on a 1-D array; same conventions as `npMin`. -/
def npMax : List ℝ → ℝ
  | [] => 0
  | x :: xs => xs.foldl max x

/-- `utils.normalize` from `imgfilter/utils/utils.py`:
computes `arr_min`, `arr_max`; if they are equal it returns
`numpy.ones(len(arr))`, otherwise `(arr - arr_min) / (arr_max - arr_min)`
elementwise. -/
def normalize (arr : List ℝ) : List ℝ :=
  if npMin arr = npMax arr then
    List.replicate arr.length 1
  else
    arr.map fun x => (x - npMin arr) / (npMax arr - npMin arr)

/-- Row-index grid: `yy` of `numpy.mgrid[:height, :width]`. -/
def mgrid_yy (height width : ℕ) : Fin height → Fin width → ℝ :=
  fun y _ => (y.val : ℝ)

/-- Column-index grid: `xx` of `numpy.mgrid[:height, :width]`. -/
def mgrid_xx (height width : ℕ) : Fin height → Fin width → ℝ :=
  fun _ x => (x.val : ℝ)

/-- `distances_from_center` from `pattern_detection.py`:
`(xx - width / 2.0) ** 2 + (yy - height / 2.0) ** 2`. -/
def distances_from_center (height width : ℕ) : Fin height → Fin width → ℝ :=
  fun y x =>
    (mgrid_xx height width y x - (width : ℝ) / 2) ^ 2
      + (mgrid_yy height width y x - (height : ℝ) / 2) ^ 2

/-- Number of neighbours used by the outlier filter.  The spec leaves the
LOF neighbour count as an implementation choice (§9); the standard
default of 20 is chosen and documented here. -/
def lof_k : ℕ := 20

/-- Distance from `x` to its `k`-th nearest neighbour inside `xs`
(index `lof_k` of the ascending sorted distance list; index 0 is the
point itself).  Local-density score used by `remove_anomalies`: a large
value means a locally sparse, hence anomalous, point. -/
def kth_neighbor_distance (xs : List ℝ) (x : ℝ) : ℝ :=
  ((xs.map fun y => |x - y|).insertionSort (· ≤ ·)).getD lof_k 0

/-- Modelled from the spec: `remove_anomalies` of
`imgfilter/analyzers/common/statistic_common.py` is not among the
sources.  Per the spec (§4.3): a local-outlier-factor style filter with
a contamination ratio; empty input gives empty output (not an error);
input smaller than the minimum neighbourhood size (`lof_k + 1` points)
is returned unchanged rather than failing; otherwise the inliers are
kept, as a subsequence of the input, removing up to
`⌊contamination * n⌋` points of lowest local density (largest
`kth_neighbor_distance`). -/
def remove_anomalies (xs : List ℝ) (contamination : ℝ) : List ℝ :=
  if xs.length < lof_k + 1 then xs
  else
    let cutoff :=
      ((xs.map (kth_neighbor_distance xs)).insertionSort (· ≤ ·)).reverse.getD
        (Nat.floor (contamination * xs.length)) 0
    xs.filter fun x => decide (kth_neighbor_distance xs x ≤ cutoff)

/-- Modelled from the spec: `get_max_values` of
`imgfilter/analyzers/common/statistic_common.py` is not among the
sources.  Per the spec (§4.4): select the `count` largest values of the
input (or all of them, if fewer than `count` exist). -/
def get_max_values (values : List ℝ) (count : ℕ) : List ℝ :=
  (values.insertionSort (· ≤ ·)).reverse.take count

/-- Modelled from the spec: `linear_normalize` of
`imgfilter/analyzers/common/statistic_common.py` is not among the
sources.  Per the spec (§4.6) the call `linear_normalize(p, 0.0, 0.4)`
yields `1 - (p / 0.4)`; generalised linearly over `[low, high]`. -/
def linear_normalize (value low high : ℝ) : ℝ :=
  1 - (value - low) / (high - low)

/-- `mask = magnitude_spectrum > 0.7` in `pattern_recognition`. -/
def pattern_mask (h w : ℕ) (M : Fin h → Fin w → ℝ) (y : Fin h) (x : Fin w) : Prop :=
  M y x > 0.7

/-- `circle[mask].flatten()` in `pattern_recognition`: the values of the
distance field at the high-intensity cells, flattened in row-major
order. -/
def pattern_masked_circle (h w : ℕ) (M : Fin h → Fin w → ℝ) : List ℝ :=
  (List.finRange h).flatMap fun y =>
    (List.finRange w).filterMap fun x =>
      if pattern_mask h w M y x then some (distances_from_center h w y x) else none

/-- `all_distances = numpy.sqrt(circle[mask].flatten())`. -/
def pattern_all_distances (h w : ℕ) (M : Fin h → Fin w → ℝ) : List ℝ :=
  (pattern_masked_circle h w M).map Real.sqrt

/-- `all_distances = remove_anomalies(all_distances, 0.4)`. -/
def pattern_filtered (h w : ℕ) (M : Fin h → Fin w → ℝ) : List ℝ :=
  remove_anomalies (pattern_all_distances h w M) 0.4

/-- `max_distance_avg = numpy.mean(get_max_values(all_distances, 20))`. -/
def pattern_max_distance_avg (h w : ℕ) (M : Fin h → Fin w → ℝ) : Option ℝ :=
  npMean (get_max_values (pattern_filtered h w M) 20)

/-- Squaring of a possibly-NaN float: `x ** 2`, NaN squaring to NaN. -/
def optSq (x : Option ℝ) : Option ℝ :=
  x.map fun a => a ^ 2

/-- Ordered comparison `x >= y` on possibly-NaN floats: true exactly when
both sides are finite and the real comparison holds; any comparison
involving NaN is false, as for IEEE floats. -/
def optGE (x y : Option ℝ) : Prop :=
  ∃ a b, x = some a ∧ y = some b ∧ a ≥ b

/-- `donut = circle >= max_distance_avg ** 2`, cellwise. -/
def pattern_donut (h w : ℕ) (M : Fin h → Fin w → ℝ) (y : Fin h) (x : Fin w) : Prop :=
  optGE (some (distances_from_center h w y x)) (optSq (pattern_max_distance_avg h w M))

/-- Model of `numpy.sum` over a boolean cell predicate: the number of
cells of the `h × w` grid satisfying it. -/
def countCells (h w : ℕ) (p : Fin h → Fin w → Prop) : ℕ :=
  (Finset.univ.filter fun yx : Fin h × Fin w => p yx.1 yx.2).card

/-- `intense_points = numpy.sum(mask & numpy.logical_not(donut))`. -/
def pattern_intense_points (h w : ℕ) (M : Fin h → Fin w → ℝ) : ℕ :=
  countCells h w fun y x => pattern_mask h w M y x ∧ ¬ pattern_donut h w M y x

/-- `all_points = magnitude_spectrum.size - numpy.sum(donut)`.  The
count of donut cells never exceeds the grid size, so natural
subtraction agrees with Python's integer subtraction here. -/
def pattern_all_points (h w : ℕ) (M : Fin h → Fin w → ℝ) : ℕ :=
  h * w - countCells h w (pattern_donut h w M)

/-- Model of `intense_points / float(all_points)` on counts: a real
division for a nonzero denominator; a zero denominator yields a
non-finite float (`0 / 0.0` is NaN — the only case reachable from
`pattern_recognition`, whose numerator is bounded by its denominator),
modelled as `none`. -/
def floatDiv (a b : ℕ) : Option ℝ :=
  if b = 0 then none else some ((a : ℝ) / (b : ℝ))

/-- `pattern_recognition` from `pattern_detection.py`, assembled from the
stage definitions above exactly as in the source. -/
def pattern_recognition (h w : ℕ) (M : Fin h → Fin w → ℝ) : Option ℝ :=
  floatDiv (pattern_intense_points h w M) (pattern_all_points h w M)

/-- `scaled_prediction` from `pattern_detection.py`, on finite floats:
`1.0` below `0.05`, `0.0` above `0.4`, otherwise
`linear_normalize(prediction, 0.0, 0.4)`. -/
def scaled_prediction (prediction : ℝ) : ℝ :=
  if prediction < 0.05 then 1
  else if prediction > 0.4 then 0
  else linear_normalize prediction 0 0.4

/-- `scaled_prediction` lifted to a possibly-NaN input.  A NaN input
fails both strict comparisons and `linear_normalize` then returns NaN,
so NaN propagates to the output. -/
def scaled_predictionF (prediction : Option ℝ) : Option ℝ :=
  prediction.map scaled_prediction

/-- Spec-side definition (for the refinement claim about the density
stage): a cell is inner iff its distance-field value is strictly below
the squared estimated radius. -/
def spec_inner (h w : ℕ) (r : ℝ) (y : Fin h) (x : Fin w) : Prop :=
  distances_from_center h w y x < r ^ 2

/-- Spec-side definition: `IntensePoints` = count of cells that are both
high-intensity and inner. -/
def spec_IntensePoints (h w : ℕ) (M : Fin h → Fin w → ℝ) (r : ℝ) : ℕ :=
  countCells h w fun y x => pattern_mask h w M y x ∧ spec_inner h w r y x

/-- Spec-side definition: `AllPoints` = total cell count minus the
outer-cell count. -/
def spec_AllPoints (h w : ℕ) (r : ℝ) : ℕ :=
  h * w - countCells h w fun y x => ¬ spec_inner h w r y x

/-- Concrete 2 × 2 magnitude spectrum with a single high-intensity cell
at the exact centre cell `(1, 1)` (whose centre distance is 0). -/
def centerSpec : Fin 2 → Fin 2 → ℝ :=
  fun y x => if y = 1 ∧ x = 1 then 1 else 0

/-- Concrete all-zero 2 × 2 magnitude spectrum. -/
def zeroSpec : Fin 2 → Fin 2 → ℝ :=
  fun _ _ => 0

/-- Concrete empty (0 × 0) magnitude spectrum. -/
def emptySpec : Fin 0 → Fin 0 → ℝ :=
  fun y _ => y.elim0

/-! ### Helper lemmas -/

theorem countCells_le (h w : ℕ) (p : Fin h → Fin w → Prop) : countCells h w p ≤ h * w := by
  unfold countCells
  calc (Finset.univ.filter fun yx : Fin h × Fin w => p yx.1 yx.2).card
      ≤ (Finset.univ : Finset (Fin h × Fin w)).card := Finset.card_filter_le _ _
    _ = h * w := by simp

theorem countCells_add_compl (h w : ℕ) (p : Fin h → Fin w → Prop) :
    countCells h w p + countCells h w (fun y x => ¬ p y x) = h * w := by
  unfold countCells
  rw [Finset.filter_card_add_filter_neg_card_eq_card]
  simp

theorem countCells_mono (h w : ℕ) (p q : Fin h → Fin w → Prop)
    (hpq : ∀ y x, p y x → q y x) : countCells h w p ≤ countCells h w q := by
  unfold countCells
  exact Finset.card_le_card
    (Finset.monotone_filter_right _ fun yx hyx => hpq yx.1 yx.2 hyx)

theorem countCells_eq_size (h w : ℕ) (p : Fin h → Fin w → Prop)
    (hp : ∀ y x, p y x) : countCells h w p = h * w := by
  unfold countCells
  rw [Finset.filter_eq_self.mpr fun yx _ => hp yx.1 yx.2]
  simp

theorem countCells_eq_zero (h w : ℕ) (p : Fin h → Fin w → Prop)
    (hp : ∀ y x, ¬ p y x) : countCells h w p = 0 := by
  unfold countCells
  rw [Finset.filter_eq_empty_iff.mpr fun yx _ => hp yx.1 yx.2]
  simp

theorem countCells_congr (h w : ℕ) (p q : Fin h → Fin w → Prop)
    (hpq : ∀ y x, p y x ↔ q y x) : countCells h w p = countCells h w q := by
  unfold countCells
  congr 1
  exact Finset.filter_congr fun yx _ => hpq yx.1 yx.2

theorem pattern_all_points_eq_inner_count (h w : ℕ) (M : Fin h → Fin w → ℝ) :
    pattern_all_points h w M = countCells h w fun y x => ¬ pattern_donut h w M y x := by
  have hc := countCells_add_compl h w (pattern_donut h w M)
  unfold pattern_all_points
  omega

theorem dfc_nonneg (h w : ℕ) (y : Fin h) (x : Fin w) :
    0 ≤ distances_from_center h w y x := by
  unfold distances_from_center
  positivity

theorem remove_anomalies_short (xs : List ℝ) (c : ℝ) (hlen : xs.length < lof_k + 1) :
    remove_anomalies xs c = xs := by
  unfold remove_anomalies
  rw [if_pos hlen]

theorem scaled_prediction_bounds (x : ℝ) :
    0 ≤ scaled_prediction x ∧ scaled_prediction x ≤ 1 := by
  unfold scaled_prediction linear_normalize
  split_ifs with h1 h2
  · norm_num
  · norm_num
  · push_neg at h1 h2
    constructor
    · have hx : (x - 0) / (0.4 - 0) ≤ 1 := by
        rw [div_le_one (by norm_num : (0:ℝ) < 0.4 - 0)]
        linarith
      linarith
    · have hx : 0 ≤ (x - 0) / (0.4 - 0) := by
        apply div_nonneg <;> linarith
      linarith

theorem noMask_masked_circle (h w : ℕ) (M : Fin h → Fin w → ℝ)
    (hm : ∀ y x, ¬ pattern_mask h w M y x) : pattern_masked_circle h w M = [] := by
  unfold pattern_masked_circle
  rw [List.flatMap_eq_nil_iff]
  intro y _
  rw [List.filterMap_eq_nil_iff]
  intro x _
  rw [if_neg (hm y x)]

theorem noMask_avg (h w : ℕ) (M : Fin h → Fin w → ℝ)
    (hm : ∀ y x, ¬ pattern_mask h w M y x) : pattern_max_distance_avg h w M = none := by
  unfold pattern_max_distance_avg pattern_filtered pattern_all_distances
  rw [noMask_masked_circle h w M hm, List.map_nil,
    remove_anomalies_short _ _ (by simp [lof_k])]
  rfl

theorem noMask_donut (h w : ℕ) (M : Fin h → Fin w → ℝ)
    (hm : ∀ y x, ¬ pattern_mask h w M y x) : ∀ y x, ¬ pattern_donut h w M y x := by
  intro y x hd
  unfold pattern_donut optGE optSq at hd
  rw [noMask_avg h w M hm] at hd
  simp at hd

theorem noMask_pipeline (h w : ℕ) (M : Fin h → Fin w → ℝ) (hw : 0 < h * w)
    (hm : ∀ y x, ¬ pattern_mask h w M y x) :
    pattern_all_distances h w M = [] ∧ pattern_filtered h w M = [] ∧
      (∀ y x, ¬ pattern_donut h w M y x) ∧
      pattern_all_points h w M = h * w ∧
      pattern_recognition h w M = some 0 ∧
      scaled_predictionF (pattern_recognition h w M) = some 1 := by
  have hmc := noMask_masked_circle h w M hm
  have had : pattern_all_distances h w M = [] := by
    unfold pattern_all_distances
    rw [hmc]
    rfl
  have hf : pattern_filtered h w M = [] := by
    unfold pattern_filtered
    rw [had]
    exact remove_anomalies_short _ _ (by simp [lof_k])
  have hd := noMask_donut h w M hm
  have hap : pattern_all_points h w M = h * w := by
    unfold pattern_all_points
    rw [countCells_eq_zero h w _ hd]
    omega
  have hip : pattern_intense_points h w M = 0 :=
    countCells_eq_zero h w _ fun y x hc => hm y x hc.1
  have hrec : pattern_recognition h w M = some 0 := by
    unfold pattern_recognition
    rw [hip, hap]
    simp [floatDiv, Nat.pos_iff_ne_zero.mp hw]
  refine ⟨had, hf, hd, hap, hrec, ?_⟩
  rw [hrec]
  norm_num [scaled_predictionF, scaled_prediction]

theorem zeroSpec_no_mask : ∀ y x : Fin 2, ¬ pattern_mask 2 2 zeroSpec y x := by
  intro y x
  unfold pattern_mask zeroSpec
  norm_num

theorem centerSpec_mask_iff (y x : Fin 2) :
    pattern_mask 2 2 centerSpec y x ↔ y = 1 ∧ x = 1 := by
  unfold pattern_mask centerSpec
  by_cases hc : y = 1 ∧ x = 1
  · simp [hc]
    norm_num
  · simp [hc]
    norm_num

theorem dfc_2211 : distances_from_center 2 2 1 1 = 0 := by
  unfold distances_from_center mgrid_xx mgrid_yy
  norm_num

theorem centerSpec_masked_circle : pattern_masked_circle 2 2 centerSpec = [0] := by
  have h2 : List.finRange 2 = [0, 1] := by decide
  unfold pattern_masked_circle
  rw [h2]
  simp [centerSpec_mask_iff, Fin.ext_iff, dfc_2211]

theorem centerSpec_all_distances : pattern_all_distances 2 2 centerSpec = [0] := by
  unfold pattern_all_distances
  rw [centerSpec_masked_circle]
  simp

theorem centerSpec_avg : pattern_max_distance_avg 2 2 centerSpec = some 0 := by
  unfold pattern_max_distance_avg pattern_filtered
  rw [centerSpec_all_distances, remove_anomalies_short _ _ (by simp [lof_k]),
    show get_max_values [0] 20 = [0] from rfl]
  simp [npMean]

theorem centerSpec_donut : ∀ y x : Fin 2, pattern_donut 2 2 centerSpec y x := by
  intro y x
  unfold pattern_donut optGE optSq
  rw [centerSpec_avg]
  exact ⟨_, 0, rfl, by norm_num, by simpa using dfc_nonneg 2 2 y x⟩

theorem centerSpec_all_points : pattern_all_points 2 2 centerSpec = 0 := by
  unfold pattern_all_points
  rw [countCells_eq_size 2 2 _ centerSpec_donut]

theorem centerSpec_recognition : pattern_recognition 2 2 centerSpec = none := by
  unfold pattern_recognition
  rw [centerSpec_all_points]
  rfl

theorem emptySpec_all_points : pattern_all_points 0 0 emptySpec = 0 := by
  unfold pattern_all_points
  simp

theorem emptySpec_recognition : pattern_recognition 0 0 emptySpec = none := by
  unfold pattern_recognition
  rw [emptySpec_all_points]
  rfl

theorem intense_le_all_helper (h w : ℕ) (M : Fin h → Fin w → ℝ) :
    pattern_intense_points h w M ≤ pattern_all_points h w M := by
  rw [pattern_all_points_eq_inner_count]
  unfold pattern_intense_points
  exact countCells_mono h w _ _ fun y x hc => hc.2

theorem density_in_unit (h w : ℕ) (M : Fin h → Fin w → ℝ)
    (hpos : 0 < pattern_all_points h w M) :
    ∃ d : ℝ, pattern_recognition h w M = some d ∧ 0 ≤ d ∧ d ≤ 1 := by
  have hle := intense_le_all_helper h w M
  refine ⟨(pattern_intense_points h w M : ℝ) / (pattern_all_points h w M : ℝ), ?_, ?_, ?_⟩
  · unfold pattern_recognition floatDiv
    rw [if_neg (Nat.pos_iff_ne_zero.mp hpos)]
  · positivity
  · rw [div_le_one (by exact_mod_cast hpos)]
    exact_mod_cast hle

/-! ### Claim theorems -/

/-- C1 (counterexample): on the 2 × 2 spectrum whose only high-intensity cell is
the exact centre cell, `all_points` is 0 and the caller receives NaN (`none`),
not a float in [0, 1]. -/
theorem score_nan_at_center_spot :
    (scaled_predictionF (pattern_recognition 2 2 centerSpec)).isSome = false := by
  rw [centerSpec_recognition]
  rfl

/-- C1 (amended): whenever `all_points` is positive — i.e. whenever the raw
density is a finite float — the score the caller receives is a float in
[0, 1]; when `all_points = 0` the caller receives NaN instead. -/
theorem score_in_unit_interval_of_all_points_pos (h w : ℕ) (M : Fin h → Fin w → ℝ)
    (hpos : 0 < pattern_all_points h w M) :
    ∃ s : ℝ, scaled_predictionF (pattern_recognition h w M) = some s ∧ 0 ≤ s ∧ s ≤ 1 := by
  obtain ⟨d, hd, _, _⟩ := density_in_unit h w M hpos
  refine ⟨scaled_prediction d, ?_, (scaled_prediction_bounds d).1,
    (scaled_prediction_bounds d).2⟩
  rw [hd]
  rfl

/-- C1 (witness): the amended theorem applied to the all-zero 2 × 2 spectrum,
whose `all_points` is 4. -/
theorem score_in_unit_interval_witness :
    ∃ s : ℝ, scaled_predictionF (pattern_recognition 2 2 zeroSpec) = some s ∧ 0 ≤ s ∧ s ≤ 1 :=
  score_in_unit_interval_of_all_points_pos 2 2 zeroSpec (by
    rw [(noMask_pipeline 2 2 zeroSpec (by norm_num) zeroSpec_no_mask).2.2.2.1]
    norm_num)

/-- C2 (counterexample): on the centre-spot 2 × 2 spectrum, `AllPoints = 0` and
`pattern_recognition` yields no defined raw density at all (the division gives
NaN), instead of a safe fallback value. -/
theorem all_points_zero_no_fallback :
    pattern_all_points 2 2 centerSpec = 0 ∧
      (pattern_recognition 2 2 centerSpec).isSome = false :=
  ⟨centerSpec_all_points, by rw [centerSpec_recognition]; rfl⟩

/-- C2 (amended): when `AllPoints = 0`, `pattern_recognition` raises no
division error (the model is total there), but the raw density it yields is
the NaN of a zero-by-zero float division (`none`), not a defined fallback. -/
theorem all_points_zero_gives_nan (h w : ℕ) (M : Fin h → Fin w → ℝ)
    (h0 : pattern_all_points h w M = 0) : pattern_recognition h w M = none := by
  unfold pattern_recognition
  rw [h0]
  rfl

/-- C2 (witness): the amended theorem applied to the centre-spot 2 × 2
spectrum. -/
theorem all_points_zero_gives_nan_witness :
    pattern_recognition 2 2 centerSpec = none :=
  all_points_zero_gives_nan 2 2 centerSpec centerSpec_all_points

/-- C3: `scaled_prediction` is the three-piece map with strict boundaries:
strictly below 0.05 it returns 1.0, strictly above 0.4 it returns 0.0, and on
the closed interval [0.05, 0.4] — endpoints included — it returns the linear
interpolation `1 - p / 0.4`. -/
theorem scaled_prediction_three_pieces :
    (∀ p : ℝ, p < 0.05 → scaled_prediction p = 1) ∧
      (∀ p : ℝ, p > 0.4 → scaled_prediction p = 0) ∧
      (∀ p : ℝ, 0.05 ≤ p → p ≤ 0.4 → scaled_prediction p = 1 - p / 0.4) := by
  refine ⟨fun p hp => ?_, fun p hp => ?_, fun p h1 h2 => ?_⟩
  · unfold scaled_prediction
    rw [if_pos hp]
  · unfold scaled_prediction
    rw [if_neg (not_lt.mpr (by linarith : (0.05 : ℝ) ≤ p)), if_pos hp]
  · unfold scaled_prediction linear_normalize
    rw [if_neg (not_lt.mpr h1), if_neg (not_lt.mpr h2)]
    norm_num

/-- C3 (witness): the three pieces evaluated at 0.04, 0.5, and at the exact
boundary points 0.05 and 0.4, which take the interpolated value. -/
theorem scaled_prediction_three_pieces_witness :
    scaled_prediction 0.04 = 1 ∧ scaled_prediction 0.5 = 0 ∧
      scaled_prediction 0.05 = 1 - 0.05 / 0.4 ∧
      scaled_prediction 0.4 = 1 - 0.4 / 0.4 :=
  ⟨scaled_prediction_three_pieces.1 0.04 (by norm_num),
    scaled_prediction_three_pieces.2.1 0.5 (by norm_num),
    scaled_prediction_three_pieces.2.2 0.05 (by norm_num) (by norm_num),
    scaled_prediction_three_pieces.2.2 0.4 (by norm_num) (by norm_num)⟩

/-- C4: whenever the estimated radius is a finite float `r`,
`pattern_recognition` computes exactly the spec's raw density: the quotient of
`IntensePoints` (count of cells both high-intensity and inner, inner meaning
distance-field value < r²) by `AllPoints` (total cells minus outer cells),
and `AllPoints` equals the number of inner cells. -/
theorem pattern_recognition_refines_density_spec (h w : ℕ) (M : Fin h → Fin w → ℝ)
    (r : ℝ) (havg : pattern_max_distance_avg h w M = some r) :
    pattern_recognition h w M
        = floatDiv (spec_IntensePoints h w M r) (spec_AllPoints h w r) ∧
      spec_AllPoints h w r = countCells h w (spec_inner h w r) := by
  have hdonut : ∀ y x, pattern_donut h w M y x ↔ ¬ spec_inner h w r y x := by
    intro y x
    unfold pattern_donut optGE optSq spec_inner
    rw [havg]
    constructor
    · rintro ⟨a, b, ha, hb, hab⟩
      simp only [Option.map_some', Option.some.injEq] at ha hb
      subst ha hb
      exact not_lt.mpr hab
    · intro hge
      exact ⟨_, _, rfl, rfl, not_lt.mp hge⟩
  have hcount : countCells h w (pattern_donut h w M)
      = countCells h w fun y x => ¬ spec_inner h w r y x :=
    countCells_congr h w _ _ hdonut
  have hint : pattern_intense_points h w M = spec_IntensePoints h w M r := by
    unfold pattern_intense_points spec_IntensePoints
    exact countCells_congr h w _ _ fun y x =>
      and_congr_right fun _ => by rw [hdonut y x]; exact not_not
  have hall : pattern_all_points h w M = spec_AllPoints h w r := by
    unfold pattern_all_points spec_AllPoints
    rw [hcount]
  constructor
  · unfold pattern_recognition
    rw [hint, hall]
  · have hc := countCells_add_compl h w (spec_inner h w r)
    unfold spec_AllPoints
    omega

/-- C4 (witness): the refinement applied to the centre-spot 2 × 2 spectrum,
whose estimated radius is the finite float 0. -/
theorem pattern_recognition_refines_density_spec_witness :
    pattern_recognition 2 2 centerSpec
        = floatDiv (spec_IntensePoints 2 2 centerSpec 0) (spec_AllPoints 2 2 0) ∧
      spec_AllPoints 2 2 0 = countCells 2 2 (spec_inner 2 2 0) :=
  pattern_recognition_refines_density_spec 2 2 centerSpec 0 centerSpec_avg

/-- C5: `distances_from_center` returns the matrix whose cell `(y, x)` is
`(x - W/2.0)² + (y - H/2.0)²`, built on the floating-point centre: at the
centre cell of a 3 × 3 grid it yields 1/2, which the integer-rounded centre
`(W//2, H//2)` would instead send to 0. -/
theorem distances_from_center_formula :
    (∀ (h w : ℕ) (y : Fin h) (x : Fin w),
        distances_from_center h w y x
          = ((x.val : ℝ) - (w : ℝ) / 2) ^ 2 + ((y.val : ℝ) - (h : ℝ) / 2) ^ 2) ∧
      distances_from_center 3 3 1 1 = 1 / 2 := by
  constructor
  · intro h w y x
    rfl
  · unfold distances_from_center mgrid_xx mgrid_yy
    norm_num

/-- C6 (counterexample): on the empty (0 × 0) spectrum the final score the
pipeline produces is NaN (`none`), not a well-defined float value. -/
theorem empty_spectrum_score_nan :
    (scaled_predictionF (pattern_recognition 0 0 emptySpec)).isSome = false := by
  rw [emptySpec_recognition]
  rfl

/-- C6 (amended): for every nonempty spectrum with no cell above 0.7, the
empty distance set propagates through the outlier-filter, radius-estimation
and density stages, and the final score is a defined value; for the empty
(size-0) spectrum the final score is NaN. -/
theorem no_high_cells_pipeline_defined (h w : ℕ) (M : Fin h → Fin w → ℝ)
    (hw : 0 < h * w) (hm : ∀ y x, ¬ pattern_mask h w M y x) :
    pattern_all_distances h w M = [] ∧ pattern_filtered h w M = [] ∧
      scaled_predictionF (pattern_recognition h w M) = some 1 := by
  obtain ⟨h1, h2, _, _, _, h6⟩ := noMask_pipeline h w M hw hm
  exact ⟨h1, h2, h6⟩

/-- C6 (witness): the amended theorem applied to the all-zero 2 × 2
spectrum. -/
theorem no_high_cells_pipeline_defined_witness :
    pattern_all_distances 2 2 zeroSpec = [] ∧ pattern_filtered 2 2 zeroSpec = [] ∧
      scaled_predictionF (pattern_recognition 2 2 zeroSpec) = some 1 :=
  no_high_cells_pipeline_defined 2 2 zeroSpec (by norm_num) zeroSpec_no_mask

/-- C7: the outlier filter, at contamination 0.4, always returns a subsequence
of its input — so its output is never longer than its input — and maps the
empty input to the empty output without error. -/
theorem remove_anomalies_sublist (xs : List ℝ) :
    (remove_anomalies xs 0.4).Sublist xs ∧
      (remove_anomalies xs 0.4).length ≤ xs.length ∧
      remove_anomalies ([] : List ℝ) 0.4 = [] := by
  have hs : (remove_anomalies xs 0.4).Sublist xs := by
    unfold remove_anomalies
    split
    · exact List.Sublist.refl xs
    · exact List.filter_sublist xs
  exact ⟨hs, hs.length_le, remove_anomalies_short [] 0.4 (by simp [lof_k])⟩

/-- C8: on a nonempty array whose minimum equals its maximum, `normalize`
returns the all-ones array of the same length instead of dividing by zero. -/
theorem normalize_constant_array (arr : List ℝ) (_hne : arr ≠ [])
    (hmm : npMin arr = npMax arr) :
    normalize arr = List.replicate arr.length 1 := by
  unfold normalize
  rw [if_pos hmm]

/-- C8 (witness): the theorem applied to the constant array `[2, 2, 2]`. -/
theorem normalize_constant_array_witness :
    normalize [2, 2, 2] = List.replicate ([2, 2, 2] : List ℝ).length 1 :=
  normalize_constant_array [2, 2, 2] (by simp) (by simp [npMin, npMax])

/-- C9 (counterexample): the empty (0 × 0) spectrum has no cell above 0.7,
yet `pattern_recognition` returns NaN (`none`), not the raw density 0.0. -/
theorem empty_spectrum_density_not_zero :
    pattern_recognition 0 0 emptySpec = none ∧
      pattern_recognition 0 0 emptySpec ≠ some 0 := by
  refine ⟨emptySpec_recognition, ?_⟩
  rw [emptySpec_recognition]
  simp

/-- C9 (amended): for every nonempty spectrum with no cell above 0.7 — with
the anomaly-removal and top-K helpers mapping the empty sequence to the empty
sequence, the mean of the empty sequence being NaN, and comparisons against
NaN false — the donut mask is all-false, the raw density is exactly 0.0, and
the final scaled score is exactly 1.0: the degenerate-case sentinel the code
implements is 1.0. -/
theorem no_high_cells_score_one (h w : ℕ) (M : Fin h → Fin w → ℝ)
    (hw : 0 < h * w) (hm : ∀ y x, ¬ pattern_mask h w M y x) :
    (∀ y x, ¬ pattern_donut h w M y x) ∧
      pattern_recognition h w M = some 0 ∧
      scaled_predictionF (pattern_recognition h w M) = some 1 := by
  obtain ⟨_, _, h3, _, h5, h6⟩ := noMask_pipeline h w M hw hm
  exact ⟨h3, h5, h6⟩

/-- C9 (witness): the amended theorem applied to the all-zero 2 × 2 spectrum:
the raw density is 0.0 and the final score is 1.0. -/
theorem no_high_cells_score_one_witness :
    pattern_recognition 2 2 zeroSpec = some 0 ∧
      scaled_predictionF (pattern_recognition 2 2 zeroSpec) = some 1 :=
  ⟨(no_high_cells_score_one 2 2 zeroSpec (by norm_num) zeroSpec_no_mask).2.1,
    (no_high_cells_score_one 2 2 zeroSpec (by norm_num) zeroSpec_no_mask).2.2⟩

/-- C10: for every magnitude spectrum, the cells counted by `intense_points`
are among the inner cells counted by `all_points`, so
`intense_points ≤ all_points`; hence whenever `all_points` is positive the raw
density is a defined float in [0, 1]. -/
theorem intense_points_le_all_points (h w : ℕ) (M : Fin h → Fin w → ℝ) :
    pattern_intense_points h w M ≤ pattern_all_points h w M ∧
      (0 < pattern_all_points h w M →
        ∃ d : ℝ, pattern_recognition h w M = some d ∧ 0 ≤ d ∧ d ≤ 1) :=
  ⟨intense_le_all_helper h w M, density_in_unit h w M⟩

/-- C10 (witness): the theorem applied to the all-zero 2 × 2 spectrum, whose
`all_points` is 4. -/
theorem intense_points_le_all_points_witness :
    pattern_intense_points 2 2 zeroSpec ≤ pattern_all_points 2 2 zeroSpec ∧
      ∃ d : ℝ, pattern_recognition 2 2 zeroSpec = some d ∧ 0 ≤ d ∧ d ≤ 1 :=
  ⟨(intense_points_le_all_points 2 2 zeroSpec).1,
    (intense_points_le_all_points 2 2 zeroSpec).2 (by
      rw [(noMask_pipeline 2 2 zeroSpec (by norm_num) zeroSpec_no_mask).2.2.2.1]
      norm_num)⟩

end

end Qualipy
